import Mathlib

/-!
Shallow embedding of the Aikido GitLab MR commenter bot
(src/aikido_comment_mr.py, src/lib/aikido.py, src/lib/git.py).

Python strings are modelled as `String` (or `List Char` where splitting
semantics matter), dictionaries with a fixed field set as structures whose
fields hold the value returned by the corresponding `dict.get` access, and
insertion-ordered dictionaries with dynamic keys as association lists.
HTTP responses are modelled as oracles supplied to each function: a status
code paired with the decoded JSON body.  Raising is modelled with `Except`.
-/

namespace Aikido

/-! ### Python string helpers -/

/-- Does `needle` occur at the start of `hay`?  (Helper for substring tests.) -/
def list_starts_with : List Char → List Char → Bool
  | [], _ => true
  | _ :: _, [] => false
  | a :: as, b :: bs => a == b && list_starts_with as bs

/-- Does `needle` occur anywhere inside `hay`?  This is Python's
`needle in hay` on strings. -/
def occurs_in (needle : List Char) : List Char → Bool
  | [] => needle.isEmpty
  | c :: cs => list_starts_with needle (c :: cs) || occurs_in needle cs

/-- Python's `needle in hay` substring test on `String`. -/
def py_in (needle hay : String) : Bool :=
  occurs_in needle.toList hay.toList

/-- Python's `s.replace("_", " ")` (single-character replacement). -/
def py_replace_underscore (s : String) : String :=
  (s.toList.map (fun c => if c == '_' then ' ' else c)).asString

/-- One step of Python's `str.title()`: a cased character is uppercased when
the previous character was not cased and lowercased otherwise (ASCII
semantics, which is all the source ever feeds it). -/
def py_title_chars : List Char → Bool → List Char
  | [], _ => []
  | c :: cs, prev_cased =>
    (if c.isAlpha then (if prev_cased then c.toLower else c.toUpper) else c)
      :: py_title_chars cs c.isAlpha

/-- Python's `s.title()`. -/
def py_title (s : String) : String :=
  (py_title_chars s.toList false).asString

/-- Python's `s.split(sep)` for a one-character separator, over `List Char`. -/
def py_split (sep : Char) : List Char → List (List Char)
  | [] => [[]]
  | c :: cs =>
    if c = sep then [] :: py_split sep cs
    else
      match py_split sep cs with
      | [] => [[c]]
      | g :: gs => (c :: g) :: gs

/-- Rendering of a Python value that is either a string or `None` inside an
f-string: `None` prints as `"None"`. -/
def pystr (v : Option String) : String :=
  match v with
  | none => "None"
  | some s => s

/-! ### Data model

An `Issue` is one finding inside an issue group; an `IssueGroup` is a
deduplicated cluster.  Each structure field stores the value the Python code
observes through `dict.get` with the default used at that access site.
`affected_package` is read with two different defaults (`""` and `None`), so
for it the raw field state (absent / null / string) is kept. -/

/-- State of a JSON field that the code reads with more than one default:
the key can be absent, present with value `null`, or present with a string. -/
inductive PyField where
  | absent
  | null
  | str (s : String)
deriving DecidableEq, Repr

/-- Python's `d.get(key, default)` for a string default, as observed on a
`PyField`; the result is a Python string (`some`) or `None` (`none`). -/
def PyField.getD (f : PyField) (d : String) : Option String :=
  match f with
  | .absent => some d
  | .null => none
  | .str s => some s

/-- Python's `d.get(key)` (default `None`) on a `PyField`. -/
def PyField.getOrNone : PyField → Option String
  | .absent => none
  | .null => none
  | .str s => some s

/-- One concrete finding, as consumed by `generate_table`.
`affected_file` holds `issue.get("affected_file", "")` (`none` models an
explicit JSON `null`); `attack_surface` holds `issue.get("attack_surface", "")`. -/
structure Issue where
  affected_file : Option String
  attack_surface : String
  affected_package : PyField
deriving DecidableEq, Repr

/-- A merged issue group as consumed by `filter_high_and_critical` and
`generate_table`: `type` holds `get("type", "")`, `description` holds
`get("description", "")` (`none` models an explicit `null`), `severity`
holds `get("severity")`, and `issue_list` holds `get("issue_list", {})`
(absent key gives the empty list). -/
structure IssueGroup where
  type : String
  description : Option String
  severity : Option String
  issue_list : List Issue
deriving DecidableEq, Repr

/-- A repository record from the paginated repository listing. -/
structure Repo where
  id : String
  name : String
deriving DecidableEq, Repr

/-- An issue group record as returned by the open-issue-groups endpoint
(no `issue_list` yet). -/
structure ApiGroup where
  id : String
  type : String
  description : Option String
  severity : Option String
deriving DecidableEq, Repr

/-- A note (comment) on a GitLab merge request. -/
structure Note where
  id : Nat
  body : String
deriving DecidableEq, Repr

/-! ### Python `dict` as an insertion-ordered association list -/

/-- Python `d.get(k)` on an insertion-ordered dict. -/
def dict_lookup (d : List (String × α)) (k : String) : Option α :=
  (d.find? (fun p => p.1 == k)).map (fun p => p.2)

/-- Python `d[k] = v` / `d.update({k: v})`: an existing key keeps its
position, a new key is appended. -/
def dict_update (d : List (String × α)) (k : String) (v : α) : List (String × α) :=
  if d.any (fun p => p.1 == k) then d.map (fun p => if p.1 == k then (k, v) else p)
  else d ++ [(k, v)]

/-! ### Table renderer (`generate_table` in src/lib/aikido.py)

`pu` is the module-level `project_url` and `sb` the module-level
`source_branch_name` as they appear inside the f-strings.  The only Python
exception `generate_table` itself can raise is the `TypeError` from
`affected_package in file_list` when `affected_package` is `None`; it is
modelled with `Except`. -/

/-- A Python exception escaping `generate_table`. -/
inductive PyErr where
  | typeError
deriving DecidableEq, Repr

/-- The f-string rendering a Markdown link to the Dockerfile at the current
branch's blob URL. -/
def dockerfile_link (pu sb : String) : String :=
  "[Dockerfile](" ++ pu ++ "/-/blob/" ++ sb ++ "/Dockerfile)"

/-- The f-string rendering a Markdown link to `affected_file` at the current
branch's blob URL. -/
def file_link (pu sb af : String) : String :=
  "[" ++ af ++ "](" ++ pu ++ "/-/blob/" ++ sb ++ "/" ++ af ++ ")"

/-- The severity column.  The Python literals contain `\t` escapes, so the
rendered cells contain literal TAB characters; the same escapes are used
here.  Any severity other than critical/high/medium (including `None`,
which an f-string prints as `"None"`) passes through unstyled. -/
def severity_cell (sev : Option String) : String :=
  if sev = some "critical" then "$`\textcolor\x7bred\x7d\x7b\text\x7bcritical\x7d\x7d`$"
  else if sev = some "high" then "$`\textcolor\x7borange\x7d\x7b\text\x7bhigh\x7d\x7d`$"
  else if sev = some "medium" then "$`\textcolor\x7byellow\x7d\x7b\text\x7bmedium\x7d\x7d`$"
  else pystr sev

/-- The inner `for issue in issue_group.get("issue_list", {})` loop of
`generate_table`.  State: the running `description`, `file_list` and
`file_count`; the result is their final values (a `docker_container` issue
with no file triggers the `break`).  The write-only local `affected_files`
has no observable effect and is not modelled. -/
def render_issues (pu sb : String) :
    List Issue → Option String → String → Nat →
    Except PyErr (Option String × String × Nat)
  | [], desc, fl, fc => .ok (desc, fl, fc)
  | issue :: rest, desc, fl, fc =>
    let desc := if desc = some "" ∨ desc = none then issue.affected_package.getD "" else desc
    if issue.affected_file = none ∨ issue.affected_file = some "" then
      if issue.attack_surface = "docker_container" then
        .ok (desc, fl ++ dockerfile_link pu sb, fc)
      else
        match issue.affected_package.getOrNone with
        | none => .error .typeError
        | some pkg =>
          if py_in pkg fl then render_issues pu sb rest desc fl fc
          else render_issues pu sb rest desc (fl ++ "Package: `" ++ pkg ++ "`<br>") fc
    else
      let af := issue.affected_file.getD ""
      let fl := fl ++ file_link pu sb af
      let fl := if fc = 2 then fl ++ "<details><summary>view more files</summary>" else fl
      render_issues pu sb rest desc fl (fc + 1)

/-- The initial value of the `table` accumulator. -/
def table_header : String :=
  "|Issue description|File location or affected package|Severity|Link|\n|---|---|---|---|\n"

/-- The fixed success banner returned when no issues survive filtering. -/
def no_issues_banner : String :=
  "\n# SAST scan results\nNo high or critical issues found in codebase ✅"

/-- The outer `for issue_group_id, issue_group in ...items()` loop of
`generate_table`, accumulating rows onto `table`. -/
def render_rows (pu sb repo_id : String) :
    List (String × IssueGroup) → String → Except PyErr String
  | [], table => .ok table
  | (gid, g) :: rest, table =>
    let issue_type := py_title (py_replace_underscore g.type)
    if issue_type = "leaked_secret" then render_rows pu sb repo_id rest table
    else
      match render_issues pu sb g.issue_list g.description "" 0 with
      | .error e => .error e
      | .ok (desc, fl, fc) =>
        let fl := if 2 ≤ fc then fl ++ "</details>" else fl
        let sev := severity_cell g.severity
        let link := "https://app.aikido.dev/repositories/" ++ repo_id ++ "?sidebarIssue=" ++ gid
        render_rows pu sb repo_id rest
          (table ++ "|" ++ pystr desc ++ "|" ++ fl ++ "|" ++ sev ++ "|" ++ link ++ "|\n")

/-- `generate_table(high_and_critical_issues, repo_id)`. -/
def generate_table (pu sb : String) (high_and_critical_issues : List (String × IssueGroup))
    (repo_id : String) : Except PyErr String :=
  if high_and_critical_issues.length = 0 then .ok no_issues_banner
  else
    match render_rows pu sb repo_id high_and_critical_issues table_header with
    | .error e => .error e
    | .ok table =>
      .ok ("\n# SAST scan results\n" ++ toString high_and_critical_issues.length ++
        " issues found in codebase❗\n<details><summary>SAST scan results</summary>\n\n" ++
        table ++ "\n</details>")

/-! ### Fetch pipeline (src/lib/aikido.py)

Each network call is modelled by the response it receives: a status code
paired with the decoded JSON body.  `AikidoEnv` bundles the responses seen
by one run. -/

/-- A Python exception raised by a fetch-stage function. -/
inductive PyExn where
  | authError
  | reposError (status : Nat)
  | repoNotFound
  | groupsError (status : Nat)
  | exportError (status : Nat)
  | outOfFuel
deriving DecidableEq, Repr

/-- The responses one run of the pipeline receives:
token endpoint, repository listing per page, open-issue-groups listing,
and issue export per issue-group id. -/
structure AikidoEnv where
  token_status : Nat
  token_body : List (String × String)
  repo_pages : Nat → Nat × List Repo
  groups_resp : Nat × List ApiGroup
  details_resp : String → Nat × List Issue

/-- `get_oauth_token`: HTTP 200 returns `token_info.get("access_token")`
(which is `None` when the key is missing); any other status raises. -/
def get_oauth_token (status : Nat) (body : List (String × String)) :
    Except PyExn (Option String) :=
  if status = 200 then .ok (dict_lookup body "access_token")
  else .error .authError

/-- The `while True` pagination loop of `get_code_repositories` with page
size 10: append the page on HTTP 200 (raise otherwise), stop when the page
has fewer than 10 items.  `fuel` bounds the number of iterations (a pure
model artifact; the distinguished `outOfFuel` error marks exhaustion). -/
def get_code_repositories_loop (pages : Nat → Nat × List Repo) :
    Nat → Nat → List Repo → Except PyExn (List Repo)
  | 0, _, _ => .error .outOfFuel
  | fuel + 1, page, repos =>
    let r := pages page
    if r.1 = 200 then
      if r.2.length < 10 then .ok (repos ++ r.2)
      else get_code_repositories_loop pages fuel (page + 1) (repos ++ r.2)
    else .error (.reposError r.1)

/-- `get_code_repositories`: paginate from page 0 with an empty accumulator. -/
def get_code_repositories (pages : Nat → Nat × List Repo) (fuel : Nat) :
    Except PyExn (List Repo) :=
  get_code_repositories_loop pages fuel 0 []

/-- `get_repo_id`: first repository whose `name` contains `repo_name` as a
substring wins; raise when none does. -/
def get_repo_id : List Repo → String → Except PyExn String
  | [], _ => .error .repoNotFound
  | r :: rs, repo_name =>
    if py_in repo_name r.name then .ok r.id else get_repo_id rs repo_name

/-- `get_open_issue_groups`: return the body on HTTP 200, raise otherwise. -/
def get_open_issue_groups (resp : Nat × List ApiGroup) : Except PyExn (List ApiGroup) :=
  if resp.1 = 200 then .ok resp.2 else .error (.groupsError resp.1)

/-- `get_issue_group_ids`. -/
def get_issue_group_ids (issue_groups : List ApiGroup) : List String :=
  issue_groups.map (fun g => g.id)

/-- `export_issue_details` for one issue-group id: on HTTP 200 the call
yields `{issue_group_id: issues}`, otherwise it raises. -/
def export_issue_details (details : String → Nat × List Issue) (issue_group_id : String) :
    Except PyExn (String × List Issue) :=
  let r := details issue_group_id
  if r.1 = 200 then .ok (issue_group_id, r.2) else .error (.exportError r.1)

/-- `export_issue_details_wrapper`: one request per id; the results mapping
is updated in submission order and the first failing future's exception
propagates. -/
def export_issue_details_wrapper (details : String → Nat × List Issue)
    (issue_group_id_list : List String) : Except PyExn (List (String × List Issue)) :=
  issue_group_id_list.mapM (export_issue_details details)

/-- The group record an `ApiGroup` denotes before any `issue_list` is
attached (an absent `issue_list` key reads back as the empty list). -/
def api_group_to_group (g : ApiGroup) : IssueGroup :=
  { type := g.type, description := g.description, severity := g.severity, issue_list := [] }

/-- The empty dict `{}` used as the default when an exported id has no
matching group: every field reads back as its `get` default. -/
def empty_group : IssueGroup :=
  { type := "", description := some "", severity := none, issue_list := [] }

/-- `merge_issue_details_with_issue_groups`: key the groups by id, then
attach each exported issue list to its group (or to a fresh empty record). -/
def merge_issue_details_with_issue_groups (issue_groups : List ApiGroup)
    (issue_details : List (String × List Issue)) : List (String × IssueGroup) :=
  let base := issue_groups.foldl (fun d g => dict_update d g.id (api_group_to_group g)) []
  issue_details.foldl
    (fun d p =>
      let g := (dict_lookup d p.1).getD empty_group
      dict_update d p.1 { g with issue_list := p.2 })
    base

/-- The severity test `issue_group.get("severity") in ["high", "critical"]`
(`None` is never in a list of strings). -/
def severity_is_high_or_critical (g : IssueGroup) : Bool :=
  match g.severity with
  | none => false
  | some s => ["high", "critical"].contains s

/-- `filter_high_and_critical`: keep the groups whose severity passes. -/
def filter_high_and_critical : List (String × IssueGroup) → List (String × IssueGroup)
  | [] => []
  | (gid, g) :: rest =>
    if severity_is_high_or_critical g then (gid, g) :: filter_high_and_critical rest
    else filter_high_and_critical rest

/-- The body of the `try` block of `get_high_and_critical_issues`: the
full fetch-merge-filter chain, propagating the first exception. -/
def build_issue_data (env : AikidoEnv) (repo_name : String) (fuel : Nat) :
    Except PyExn (List (String × IssueGroup) × String) := do
  let _oauth_token ← get_oauth_token env.token_status env.token_body
  let repos ← get_code_repositories env.repo_pages fuel
  let repo_id ← get_repo_id repos repo_name
  let issue_groups ← get_open_issue_groups env.groups_resp
  let issue_group_ids := get_issue_group_ids issue_groups
  let issue_details ← export_issue_details_wrapper env.details_resp issue_group_ids
  let merged := merge_issue_details_with_issue_groups issue_groups issue_details
  let filtered := filter_high_and_critical merged
  pure (filtered, repo_id)

/-- `get_high_and_critical_issues`: its `except Exception` handler turns any
exception from the `try` block into `exit(1)` — a `SystemExit` carrying
status 1, modelled as the error code on the left. -/
def get_high_and_critical_issues (env : AikidoEnv) (repo_name : String) (fuel : Nat) :
    Except Nat (List (String × IssueGroup) × String) :=
  match build_issue_data env repo_name fuel with
  | .ok x => .ok x
  | .error _ => .error 1

/-- Outcome of calling `generate_issue_table`: a table string, a raised
Python `Exception`, or a `SystemExit` with an exit code. -/
inductive PyOutcome (α : Type) where
  | ok (a : α)
  | raised
  | exited (code : Nat)
deriving DecidableEq, Repr

/-- `generate_issue_table`: fetch (which may exit the process), then render
(which may raise). -/
def generate_issue_table (env : AikidoEnv) (repo_name : String) (fuel : Nat)
    (pu sb : String) : PyOutcome String :=
  match get_high_and_critical_issues env repo_name fuel with
  | .error c => .exited c
  | .ok (issues, repo_id) =>
    match generate_table pu sb issues repo_id with
    | .ok t => .ok t
    | .error _ => .raised

/-! ### Top-level driver (`main` in src/aikido_comment_mr.py) -/

/-- What the run does after argument validation: post a comment body to the
merge request, or terminate with an exit code. -/
inductive MainOutcome where
  | posted (body : String)
  | exited (code : Nat)
deriving DecidableEq, Repr

/-- The placeholder substituted by `main`'s `except Exception` handler. -/
def failed_banner : String := "\nFailed to generate Aikido table\n"

/-- The `base_message` f-string built from the pipeline id/url and commit sha. -/
def base_message (pipeline_id pipeline_url commit_sha : String) : String :=
  "# Security tooling scan results\n\n|   |   |\n|---|---|\n|Pipeline ID|[" ++ pipeline_id ++
    "](" ++ pipeline_url ++ ")|\n|Commit sha1|" ++ commit_sha ++ "|\n\n"

/-- The comment-generation part of `main`: `except Exception` replaces a
raised `Exception` with the placeholder, but a `SystemExit` (from the
`exit(1)` inside `get_high_and_critical_issues`) is not an `Exception` and
terminates the process before `add_note_to_mr` is reached. -/
def main_result (env : AikidoEnv) (repo_name : String) (fuel : Nat) (pu sb : String)
    (pipeline_id pipeline_url commit_sha : String) : MainOutcome :=
  match generate_issue_table env repo_name fuel pu sb with
  | .ok t => .posted (base_message pipeline_id pipeline_url commit_sha ++ "\n\n" ++ t)
  | .raised => .posted (base_message pipeline_id pipeline_url commit_sha ++ "\n\n" ++ failed_banner)
  | .exited c => .exited c

/-! ### Comment upsert (src/lib/git.py) -/

/-- The access-token normalisation shared by `add_note_to_mr`,
`mr_already_has_note` and `update_note`:
`if ":" in access_token: access_token = access_token.split(":")[1]`.
Over `List Char`; the guard guarantees the split has at least two fields. -/
def strip_access_token (access_token : List Char) : List Char :=
  if access_token.contains ':' then (py_split ':' access_token).getD 1 []
  else access_token

/-- The `Private_Token` header value sent by `add_note_to_mr` (lines 34-37). -/
def add_note_private_token (access_token : List Char) : List Char :=
  strip_access_token access_token

/-- The `Private_Token` header value sent by `mr_already_has_note` (lines 80-82). -/
def has_note_private_token (access_token : List Char) : List Char :=
  strip_access_token access_token

/-- The `Private_Token` header value sent by `update_note` (lines 120-122). -/
def update_note_private_token (access_token : List Char) : List Char :=
  strip_access_token access_token

/-- `mr_already_has_note`, as a function of the notes-listing response: on
HTTP 200 return the id of the first note whose body contains the marker,
or `False` when none does; on any other status log and return `False`.
`none` models the Python `False`. -/
def mr_already_has_note (status : Nat) (notes : List Note) : Option Nat :=
  if status = 200 then
    match notes.find? (fun n => py_in "Security tooling scan results" n.body) with
    | some n => some n.id
    | none => none
  else none

/-- Which HTTP request `add_note_to_mr` issues next. -/
inductive UpsertPath where
  | update (note_id : Nat)
  | post
deriving DecidableEq, Repr

/-- The branch taken by `add_note_to_mr` on the result of
`mr_already_has_note` (`if note_id:` — Python truthiness, so `False` and
`0` both select the create path). -/
def add_note_to_mr_path (status : Nat) (notes : List Note) : UpsertPath :=
  let note_id := mr_already_has_note status notes
  match note_id with
  | some n => if n ≠ 0 then .update n else .post
  | none => .post

/-! ### Substring-test correctness -/

/-- `list_starts_with` holds exactly when the needle is a prefix. -/
theorem list_starts_with_iff (n : List Char) :
    ∀ h : List Char, list_starts_with n h = true ↔ ∃ rest, h = n ++ rest := by
  induction n with
  | nil => intro h; simp [list_starts_with]
  | cons a as ih =>
    intro h
    cases h with
    | nil =>
      simp only [list_starts_with, List.cons_append]
      constructor
      · intro hfalse; cases hfalse
      · rintro ⟨rest, hr⟩; cases hr
    | cons b bs =>
      simp only [list_starts_with, Bool.and_eq_true, beq_iff_eq, ih bs, List.cons_append]
      constructor
      · rintro ⟨rfl, rest, rfl⟩; exact ⟨rest, rfl⟩
      · rintro ⟨rest, hr⟩
        injection hr with h1 h2
        exact ⟨h1.symm, rest, h2⟩

/-- `occurs_in` holds exactly when the needle occurs as a contiguous
substring. -/
theorem occurs_in_iff (n : List Char) :
    ∀ h : List Char, occurs_in n h = true ↔ ∃ pre post, h = pre ++ n ++ post := by
  intro h
  induction h with
  | nil =>
    simp only [occurs_in, List.isEmpty_iff]
    constructor
    · rintro rfl; exact ⟨[], [], rfl⟩
    · rintro ⟨pre, post, hp⟩
      rcases List.append_eq_nil.mp (List.append_eq_nil.mp hp.symm).1 with ⟨-, h2⟩
      exact h2
  | cons c cs ih =>
    simp only [occurs_in, Bool.or_eq_true, list_starts_with_iff, ih]
    constructor
    · rintro (⟨rest, hr⟩ | ⟨pre, post, rfl⟩)
      · exact ⟨[], rest, by simpa using hr⟩
      · exact ⟨c :: pre, post, rfl⟩
    · rintro ⟨pre, post, hp⟩
      cases pre with
      | nil => exact Or.inl ⟨post, by simpa using hp⟩
      | cons d ds =>
        injection hp with h1 h2
        exact Or.inr ⟨ds, post, h2⟩

/-! ### Claim theorems -/

/-- C8: on an empty filtered issue set, `generate_table` returns exactly the
fixed success string, which contains no Markdown table markup (no pipe
character at all). -/
theorem generate_table_empty_banner :
    ∀ pu sb repo_id : String,
      generate_table pu sb [] repo_id =
        Except.ok "\n# SAST scan results\nNo high or critical issues found in codebase ✅" ∧
      py_in "|" "\n# SAST scan results\nNo high or critical issues found in codebase ✅" = false := by
  intro pu sb repo_id
  exact ⟨rfl, by decide⟩

/-- C9: when the token endpoint answers HTTP 200, `get_oauth_token` returns
`token_info.get("access_token")` without raising — in particular `None`
when the key is missing; the authentication error is raised exactly on a
non-200 status. -/
theorem get_oauth_token_missing_key :
    ∀ (status : Nat) (body : List (String × String)),
      (status = 200 → get_oauth_token status body = .ok (dict_lookup body "access_token")) ∧
      (status = 200 → dict_lookup body "access_token" = none →
        get_oauth_token status body = .ok none) ∧
      (status ≠ 200 → get_oauth_token status body = .error .authError) := by
  intro status body
  refine ⟨fun h => by simp [get_oauth_token, h],
          fun h hmiss => by simp [get_oauth_token, h, hmiss],
          fun h => by simp [get_oauth_token, h]⟩

/-- Witness for C9 at a concrete 200-with-missing-key response and a
concrete 401 response. -/
theorem get_oauth_token_missing_key_w :
    get_oauth_token 200 [("token_type", "bearer")] = .ok none ∧
    get_oauth_token 401 [] = .error .authError := by
  exact ⟨(get_oauth_token_missing_key 200 [("token_type", "bearer")]).2.1 rfl (by decide),
         (get_oauth_token_missing_key 401 []).2.2 (by decide)⟩

/-- C10: a non-200 notes listing makes `mr_already_has_note` return `False`
(the same value as a 200 listing with no marker note), and `add_note_to_mr`
then takes the create (POST) path instead of raising. -/
theorem mr_already_has_note_non_200 :
    ∀ (status : Nat) (notes : List Note), status ≠ 200 →
      mr_already_has_note status notes = none ∧
      mr_already_has_note status notes = mr_already_has_note 200 [] ∧
      add_note_to_mr_path status notes = .post ∧
      ∀ notes2 : List Note,
        notes2.all (fun n => !(py_in "Security tooling scan results" n.body)) = true →
        mr_already_has_note 200 notes2 = mr_already_has_note status notes := by
  intro status notes h
  have hbase : mr_already_has_note status notes = none := by
    simp [mr_already_has_note, h]
  refine ⟨hbase, by rw [hbase]; rfl, ?_, ?_⟩
  · simp [add_note_to_mr_path, hbase]
  · intro notes2 hall
    have hfind : notes2.find? (fun n => py_in "Security tooling scan results" n.body) = none := by
      rw [List.find?_eq_none]
      intro x hx
      have := List.all_eq_true.mp hall x hx
      simpa using this
    rw [hbase]
    simp [mr_already_has_note, hfind]

/-- Witness for C10: a 500 listing over a merge request that does have a
marker note still reports "no note" and selects the POST path. -/
theorem mr_already_has_note_non_200_w :
    mr_already_has_note 500 [⟨7, "old Security tooling scan results body"⟩] = none ∧
    add_note_to_mr_path 500 [⟨7, "old Security tooling scan results body"⟩] = .post ∧
    mr_already_has_note 200 [⟨3, "unrelated"⟩] =
      mr_already_has_note 500 [⟨7, "old Security tooling scan results body"⟩] := by
  have h := mr_already_has_note_non_200 500 [⟨7, "old Security tooling scan results body"⟩]
    (by decide)
  exact ⟨h.1, h.2.2.1, h.2.2.2 [⟨3, "unrelated"⟩] (by decide)⟩

/-- The severity test passes exactly on `"high"` and `"critical"`. -/
theorem severity_is_high_or_critical_iff (g : IssueGroup) :
    severity_is_high_or_critical g = true ↔
      g.severity = some "high" ∨ g.severity = some "critical" := by
  unfold severity_is_high_or_critical
  cases hs : g.severity with
  | none => simp
  | some s => simp [List.contains]

/-- The hand-rolled filter loop agrees with `List.filter`. -/
theorem filter_high_and_critical_eq_filter (m : List (String × IssueGroup)) :
    filter_high_and_critical m = m.filter (fun p => severity_is_high_or_critical p.2) := by
  induction m with
  | nil => rfl
  | cons q rest ih =>
    obtain ⟨gid, g⟩ := q
    by_cases hsev : severity_is_high_or_critical g
    · simp [filter_high_and_critical, hsev, List.filter_cons, ih]
    · simp [filter_high_and_critical, hsev, List.filter_cons, ih]

/-- C6: `filter_high_and_critical` keeps exactly the groups whose severity
is `"high"` or `"critical"`; any other severity (including an absent field,
which reads back as `None`) is excluded. -/
theorem filter_high_and_critical_mem :
    ∀ (m : List (String × IssueGroup)) (p : String × IssueGroup),
      p ∈ filter_high_and_critical m ↔
        p ∈ m ∧ (p.2.severity = some "high" ∨ p.2.severity = some "critical") := by
  intro m p
  rw [filter_high_and_critical_eq_filter, List.mem_filter,
    severity_is_high_or_critical_iff]

/-- Witness for C6: a high group survives, a medium group and a
severity-less group do not. -/
theorem filter_high_and_critical_mem_w :
    ("a", ({ type := "", description := some "d", severity := some "high",
             issue_list := [] } : IssueGroup)) ∈
      filter_high_and_critical
        [("a", { type := "", description := some "d", severity := some "high", issue_list := [] }),
         ("b", { type := "", description := some "d", severity := some "medium", issue_list := [] }),
         ("c", { type := "", description := some "d", severity := none, issue_list := [] })] ∧
    ¬ ("b", ({ type := "", description := some "d", severity := some "medium",
               issue_list := [] } : IssueGroup)) ∈
      filter_high_and_critical
        [("a", { type := "", description := some "d", severity := some "high", issue_list := [] }),
         ("b", { type := "", description := some "d", severity := some "medium", issue_list := [] }),
         ("c", { type := "", description := some "d", severity := none, issue_list := [] })] := by
  constructor
  · exact (filter_high_and_critical_mem _ _).mpr ⟨by simp, Or.inl rfl⟩
  · intro hmem
    have := ((filter_high_and_critical_mem _ _).mp hmem).2
    simp at this

/-- C4: `get_repo_id` returns the id of the first repository in list order
whose name contains the query as a substring, and raises the not-found
error when none does; the match test is genuine substring containment. -/
theorem get_repo_id_first_substring_match :
    ∀ (repos : List Repo) (repo_name : String),
      get_repo_id repos repo_name =
        (match repos.find? (fun r => py_in repo_name r.name) with
         | some r => Except.ok r.id
         | none => Except.error PyExn.repoNotFound) ∧
      ∀ needle hay : String, py_in needle hay = true ↔
        ∃ pre post : List Char, hay.toList = pre ++ needle.toList ++ post := by
  intro repos repo_name
  constructor
  · induction repos with
    | nil => rfl
    | cons r rs ih =>
      by_cases hmatch : py_in repo_name r.name
      · simp [get_repo_id, hmatch, List.find?]
      · simp only [get_repo_id, List.find?, hmatch]
        simpa [hmatch] using ih
  · intro needle hay
    exact occurs_in_iff needle.toList hay.toList

/-- Witness for C4: with two matching names the first in order wins, and a
non-matching list raises. -/
theorem get_repo_id_first_substring_match_w :
    get_repo_id [⟨"id1", "foo-bar"⟩, ⟨"id2", "foo-bar-baz"⟩] "foo-bar" = Except.ok "id1" ∧
    get_repo_id [⟨"id1", "other"⟩] "foo-bar" = Except.error PyExn.repoNotFound ∧
    py_in "foo-bar" "xx-foo-bar-baz" = true := by
  refine ⟨?_, ?_, ?_⟩
  · exact (get_repo_id_first_substring_match [⟨"id1", "foo-bar"⟩, ⟨"id2", "foo-bar-baz"⟩]
      "foo-bar").1.trans rfl
  · exact (get_repo_id_first_substring_match [⟨"id1", "other"⟩] "foo-bar").1.trans rfl
  · exact (get_repo_id_first_substring_match [] "").2 "foo-bar" "xx-foo-bar-baz" |>.mpr
      ⟨"xx-".toList, "-baz".toList, by decide⟩

/-! ### Pagination (C3) -/

/-- Success case of the pagination loop, for an arbitrary starting page and
accumulator: when `k` full 200-pages precede a short 200-page, the loop
returns the accumulator followed by the concatenation of pages
`page .. page + k`. -/
theorem get_code_repositories_loop_ok (pages : Nat → Nat × List Repo) :
    ∀ (k page : Nat) (acc : List Repo) (fuel : Nat),
      (∀ i, i < k → (pages (page + i)).1 = 200 ∧ 10 ≤ (pages (page + i)).2.length) →
      (pages (page + k)).1 = 200 → (pages (page + k)).2.length < 10 →
      k < fuel →
      get_code_repositories_loop pages fuel page acc =
        .ok (acc ++ ((List.range (k + 1)).map (fun i => (pages (page + i)).2)).flatten) := by
  intro k
  induction k with
  | zero =>
    intro page acc fuel hfull h200 hshort hfuel
    cases fuel with
    | zero => omega
    | succ f =>
      rw [Nat.add_zero] at h200 hshort
      unfold get_code_repositories_loop
      simp [h200, hshort, List.range_succ]
  | succ k ih =>
    intro page acc fuel hfull h200 hshort hfuel
    cases fuel with
    | zero => omega
    | succ f =>
      have h0 := hfull 0 (Nat.succ_pos k)
      rw [Nat.add_zero] at h0
      unfold get_code_repositories_loop
      rw [if_pos h0.1, if_neg (by omega)]
      have hshift : ∀ j, page + 1 + j = page + (j + 1) := by intro j; omega
      have hrec := ih (page + 1) (acc ++ (pages page).2) f
        (fun i hi => by rw [hshift i]; exact hfull (i + 1) (by omega))
        (by rw [hshift k]; exact h200)
        (by rw [hshift k]; exact hshort)
        (by omega)
      have hflat : ((List.range (k + 1 + 1)).map (fun i => (pages (page + i)).2)).flatten
          = (pages page).2 ++
            ((List.range (k + 1)).map (fun i => (pages (page + (i + 1))).2)).flatten := by
        rw [List.range_succ_eq_map]
        simp [List.map_map, Function.comp_def, Nat.succ_eq_add_one]
      have hT : ((List.range (k + 1)).map (fun i => (pages (page + 1 + i)).2)).flatten
          = ((List.range (k + 1)).map (fun i => (pages (page + (i + 1))).2)).flatten := by
        congr 1
        apply List.map_congr_left
        intro i _
        rw [hshift i]
      rw [hrec, hT, hflat, List.append_assoc]

/-- Error case of the pagination loop: the first page answering non-200
aborts the whole call with an error, discarding the accumulator. -/
theorem get_code_repositories_loop_err (pages : Nat → Nat × List Repo) :
    ∀ (k page : Nat) (acc : List Repo) (fuel : Nat),
      (∀ i, i < k → (pages (page + i)).1 = 200 ∧ 10 ≤ (pages (page + i)).2.length) →
      (pages (page + k)).1 ≠ 200 →
      k < fuel →
      get_code_repositories_loop pages fuel page acc =
        .error (.reposError (pages (page + k)).1) := by
  intro k
  induction k with
  | zero =>
    intro page acc fuel hfull hbad hfuel
    cases fuel with
    | zero => omega
    | succ f =>
      rw [Nat.add_zero] at hbad
      unfold get_code_repositories_loop
      simp [hbad]
  | succ k ih =>
    intro page acc fuel hfull hbad hfuel
    cases fuel with
    | zero => omega
    | succ f =>
      have h0 := hfull 0 (Nat.succ_pos k)
      rw [Nat.add_zero] at h0
      unfold get_code_repositories_loop
      rw [if_pos h0.1, if_neg (by omega)]
      have hshift : ∀ j, page + 1 + j = page + (j + 1) := by intro j; omega
      have hrec := ih (page + 1) (acc ++ (pages page).2) f
        (fun i hi => by rw [hshift i]; exact hfull (i + 1) (by omega))
        (by rw [hshift k]; exact hbad)
        (by omega)
      rw [hrec, hshift k]

/-- C3: `get_code_repositories` paginates with page size 10 from page 0,
stops exactly at the first page with fewer than 10 items, and returns the
concatenation of all fetched pages in order; a non-200 response at any page
raises, returning no partial result. -/
theorem get_code_repositories_pagination :
    ∀ (pages : Nat → Nat × List Repo) (k fuel : Nat),
      (∀ i, i < k → (pages i).1 = 200 ∧ 10 ≤ (pages i).2.length) → k < fuel →
      ((pages k).1 = 200 → (pages k).2.length < 10 →
        get_code_repositories pages fuel =
          .ok (((List.range (k + 1)).map (fun i => (pages i).2)).flatten)) ∧
      ((pages k).1 ≠ 200 →
        get_code_repositories pages fuel = .error (.reposError (pages k).1)) := by
  intro pages k fuel hfull hfuel
  constructor
  · intro h200 hshort
    have h := get_code_repositories_loop_ok pages k 0 [] fuel
      (fun i hi => by rw [Nat.zero_add]; exact hfull i hi)
      (by rw [Nat.zero_add]; exact h200)
      (by rw [Nat.zero_add]; exact hshort)
      hfuel
    rw [get_code_repositories, h]
    simp [Nat.zero_add]
  · intro hbad
    have h := get_code_repositories_loop_err pages k 0 [] fuel
      (fun i hi => by rw [Nat.zero_add]; exact hfull i hi)
      (by rw [Nat.zero_add]; exact hbad)
      hfuel
    rw [get_code_repositories, h, Nat.zero_add]

/-- A concrete response sequence for the pagination witness: page 0 is full
(10 repositories), page 1 is short. -/
def pages_w : Nat → Nat × List Repo := fun p =>
  if p = 0 then (200, List.replicate 10 ⟨"i", "n"⟩) else (200, [⟨"j", "m"⟩])

/-- Witness for C3: two pages, the second short, concatenated in order. -/
theorem get_code_repositories_pagination_w :
    get_code_repositories pages_w 2 =
      .ok (((List.range 2).map (fun i => (pages_w i).2)).flatten) := by
  exact (get_code_repositories_pagination pages_w 1 2 (by decide) (by decide)).1
    (by decide) (by decide)

/-! ### Token normalisation (C5) -/

/-- Modelled from the spec's words for comparison with the code: "only the
substring after the first `:` is used if a colon is present". -/
def spec_after_first_colon : List Char → List Char
  | [] => []
  | c :: cs => if c = ':' then cs else spec_after_first_colon cs

/-- `py_split` never returns the empty list of fields. -/
theorem py_split_ne_nil (sep : Char) (l : List Char) : py_split sep l ≠ [] := by
  cases l with
  | nil => simp [py_split]
  | cons c cs =>
    unfold py_split
    by_cases h : c = sep
    · simp [h]
    · simp only [h, if_false]
      cases hs : py_split sep cs <;> simp

/-- The first field of `py_split` is the longest separator-free prefix. -/
theorem py_split_head (sep : Char) (l : List Char) :
    (py_split sep l).headD [] = l.takeWhile (fun c => !(c == sep)) := by
  induction l with
  | nil => rfl
  | cons c cs ih =>
    unfold py_split
    by_cases h : c = sep
    · subst h
      rw [if_pos rfl]
      simp [List.takeWhile_cons]
    · cases hs : py_split sep cs with
      | nil => exact absurd hs (py_split_ne_nil sep cs)
      | cons g gs =>
        rw [hs] at ih
        simp only [List.headD_cons] at ih
        have htw : List.takeWhile (fun x => !(x == sep)) (c :: cs)
            = c :: List.takeWhile (fun x => !(x == sep)) cs := by
          simp [List.takeWhile_cons, h]
        rw [if_neg h, htw, ← ih]
        rfl

/-- The second field of `py_split ':'` is the run of the token strictly
between the first colon and the next one. -/
theorem py_split_second_field (l : List Char) (hl : l.contains ':' = true) :
    (py_split ':' l).getD 1 [] =
      (spec_after_first_colon l).takeWhile (fun c => !(c == ':')) := by
  induction l with
  | nil => simp at hl
  | cons c cs ih =>
    by_cases h : c = ':'
    · subst h
      show (([] : List Char) :: py_split ':' cs).getD 1 [] = _
      have hspec : spec_after_first_colon (':' :: cs) = cs := by
        simp [spec_after_first_colon]
      rw [hspec]
      have hgd : (([] : List Char) :: py_split ':' cs).getD 1 [] = (py_split ':' cs).headD [] := by
        cases hs : py_split ':' cs with
        | nil => exact absurd hs (py_split_ne_nil ':' cs)
        | cons g gs => simp
      rw [hgd, py_split_head]
    · have hcs : cs.contains ':' = true := by
        have := hl
        simp only [List.contains_cons, Bool.or_eq_true, beq_iff_eq] at this
        rcases this with h1 | h2
        · exact absurd h1.symm h
        · simpa using h2
      cases hs : py_split ':' cs with
      | nil => exact absurd hs (py_split_ne_nil ':' cs)
      | cons g gs =>
        show (py_split ':' (c :: cs)).getD 1 [] = _
        unfold py_split
        rw [if_neg h, hs]
        simp only [spec_after_first_colon, if_neg h]
        rw [hs] at ih
        have hgoal : ((c :: g) :: gs).getD 1 [] = (g :: gs).getD 1 [] := by
          cases gs <;> simp
        rw [hgoal]
        exact ih hcs

/-- After the first colon of a one-colon token there is no further colon. -/
theorem spec_after_first_colon_count (l : List Char) (h1 : l.count ':' = 1) :
    (spec_after_first_colon l).count ':' = 0 := by
  induction l with
  | nil => simp at h1
  | cons c cs ih =>
    by_cases h : c = ':'
    · subst h
      have hspec : spec_after_first_colon (':' :: cs) = cs := by
        simp [spec_after_first_colon]
      rw [hspec]
      have := h1
      rw [List.count_cons_self] at this
      omega
    · simp only [spec_after_first_colon, if_neg h]
      apply ih
      rw [List.count_cons_of_ne (by simpa using (Ne.symm h))] at h1
      exact h1

/-- A colon-free list is untouched by `takeWhile (· ≠ ':')`. -/
theorem takeWhile_no_colon (l : List Char) (h0 : l.count ':' = 0) :
    l.takeWhile (fun c => !(c == ':')) = l := by
  induction l with
  | nil => rfl
  | cons c cs ih =>
    have hc : ¬ c = ':' := by
      intro hcc
      subst hcc
      rw [List.count_cons_self] at h0
      omega
    rw [List.count_cons_of_ne (by simpa using (Ne.symm hc))] at h0
    simp only [List.takeWhile_cons]
    rw [if_pos (by simpa using hc)]
    rw [ih h0]

/-- C5 (amended): all three comment-upsert operations send
`split(":")[1]` — the substring strictly between the first and second
colon — as the token; with no colon the token is unchanged, and with
exactly one colon this coincides with "the substring after the first
colon". -/
theorem strip_access_token_second_field :
    ∀ t : List Char,
      add_note_private_token t = strip_access_token t ∧
      has_note_private_token t = strip_access_token t ∧
      update_note_private_token t = strip_access_token t ∧
      (t.contains ':' = false → strip_access_token t = t) ∧
      (t.contains ':' = true →
        strip_access_token t = (spec_after_first_colon t).takeWhile (fun c => !(c == ':'))) ∧
      (t.count ':' = 1 → strip_access_token t = spec_after_first_colon t) := by
  intro t
  refine ⟨rfl, rfl, rfl, ?_, ?_, ?_⟩
  · intro h
    unfold strip_access_token
    rw [if_neg (by simp only [h]; exact Bool.false_ne_true)]
  · intro h
    unfold strip_access_token
    rw [if_pos h]
    exact py_split_second_field t h
  · intro h1
    have hmem : ':' ∈ t := by
      have hpos : 0 < t.count ':' := by omega
      exact List.count_pos_iff.mp hpos
    have hcont : t.contains ':' = true := List.elem_iff.mpr hmem
    unfold strip_access_token
    rw [if_pos hcont, py_split_second_field t hcont]
    exact takeWhile_no_colon _ (spec_after_first_colon_count t h1)

/-- Witness for C5's amended theorem at a one-colon and a no-colon token. -/
theorem strip_access_token_second_field_w :
    strip_access_token ("Private_Token:glpat-abc".toList) =
      spec_after_first_colon ("Private_Token:glpat-abc".toList) ∧
    strip_access_token ("rawtoken".toList) = "rawtoken".toList := by
  exact ⟨(strip_access_token_second_field ("Private_Token:glpat-abc".toList)).2.2.2.2.2
      (by decide),
    (strip_access_token_second_field ("rawtoken".toList)).2.2.2.1 (by decide)⟩

/-- C5 counterexample: on a token with two colons the code keeps only the
middle field, not the whole suffix after the first colon that the claim
demands. -/
theorem strip_token_two_colons_cex :
    add_note_private_token ("p:tok:x".toList) = "tok".toList ∧
    has_note_private_token ("p:tok:x".toList) = "tok".toList ∧
    update_note_private_token ("p:tok:x".toList) = "tok".toList ∧
    spec_after_first_colon ("p:tok:x".toList) = "tok:x".toList ∧
    ("tok".toList : List Char) ≠ "tok:x".toList := by
  refine ⟨by decide, by decide, by decide, by decide, by decide⟩

/-! ### Description-column fallback (C7) -/

/-- Does this issue carry a non-empty string `affected_package`?  Only such
an issue can end the fallback chain. -/
def pkg_nonempty (i : Issue) : Bool :=
  match i.affected_package with
  | .str s => !(s == "")
  | _ => false

/-- The prefix of a group's issue list that the rendering loop actually
consults: every issue up to and including the first one that triggers the
`docker_container` break (no concrete `affected_file` and
`attack_surface == "docker_container"`); issues after that break are never
looked at. -/
def processed_issues : List Issue → List Issue
  | [] => []
  | i :: rest =>
    if (i.affected_file = none ∨ i.affected_file = some "") ∧
        i.attack_surface = "docker_container" then [i]
    else i :: processed_issues rest

/-- Unfolding equation for `render_issues` on a cons cell, with the
intermediate `let`s expanded. -/
theorem render_issues_cons (pu sb : String) (i : Issue) (rest : List Issue)
    (desc : Option String) (fl : String) (fc : Nat) :
    render_issues pu sb (i :: rest) desc fl fc =
      if i.affected_file = none ∨ i.affected_file = some "" then
        if i.attack_surface = "docker_container" then
          .ok ((if desc = some "" ∨ desc = none then i.affected_package.getD "" else desc),
            fl ++ dockerfile_link pu sb, fc)
        else
          match i.affected_package.getOrNone with
          | none => .error .typeError
          | some pkg =>
            if py_in pkg fl then
              render_issues pu sb rest
                (if desc = some "" ∨ desc = none then i.affected_package.getD "" else desc)
                fl fc
            else
              render_issues pu sb rest
                (if desc = some "" ∨ desc = none then i.affected_package.getD "" else desc)
                (fl ++ "Package: `" ++ pkg ++ "`<br>") fc
      else
        render_issues pu sb rest
          (if desc = some "" ∨ desc = none then i.affected_package.getD "" else desc)
          (if fc = 2 then
            fl ++ file_link pu sb (i.affected_file.getD "") ++
              "<details><summary>view more files</summary>"
          else fl ++ file_link pu sb (i.affected_file.getD ""))
          (fc + 1) := rfl

/-- Unfolding equation for `processed_issues` on a cons cell. -/
theorem processed_issues_cons (i : Issue) (rest : List Issue) :
    processed_issues (i :: rest) =
      if (i.affected_file = none ∨ i.affected_file = some "") ∧
          i.attack_surface = "docker_container" then [i]
      else i :: processed_issues rest := rfl

/-- C7 (amended): for every run of the issue loop that returns normally, a
non-empty starting description is left untouched, and an empty (or `None`)
starting description ends up as the `affected_package` of the first issue
— among the issues the loop actually consults, i.e. up to and including a
`docker_container` break — whose `affected_package` is a non-empty string;
when no consulted issue has one, the description stays empty (or `None`).
It is NOT necessarily the first issue's `affected_package`, which is what
the claim as stated predicts. -/
theorem render_issues_description_fallback :
    ∀ (pu sb : String) (issues : List Issue) (d0 : Option String) (fl : String) (fc : Nat)
      (d : Option String) (fl2 : String) (fc2 : Nat),
      render_issues pu sb issues d0 fl fc = .ok (d, fl2, fc2) →
      ((¬ d0 = some "" → ¬ d0 = none → d = d0) ∧
       ((d0 = some "" ∨ d0 = none) →
         (∀ i0, (processed_issues issues).find? pkg_nonempty = some i0 →
            d = i0.affected_package.getOrNone) ∧
         ((processed_issues issues).find? pkg_nonempty = none →
            (d = some "" ∨ d = none)))) := by
  intro pu sb issues
  induction issues with
  | nil =>
    intro d0 fl fc d fl2 fc2 hok
    have h := hok
    simp only [render_issues, Except.ok.injEq, Prod.mk.injEq] at h
    obtain ⟨hd, -, -⟩ := h
    refine ⟨fun _ _ => hd.symm, fun hd0 => ⟨?_, ?_⟩⟩
    · intro i0 hfind
      simp [processed_issues, List.find?] at hfind
    · intro _
      rw [← hd]
      exact hd0
  | cons i rest ih =>
    intro d0 fl fc d fl2 fc2 hok
    rw [render_issues_cons] at hok
    by_cases hfile : i.affected_file = none ∨ i.affected_file = some ""
    · rw [if_pos hfile] at hok
      by_cases hds : i.attack_surface = "docker_container"
      · rw [if_pos hds] at hok
        simp only [Except.ok.injEq, Prod.mk.injEq] at hok
        obtain ⟨hd, -, -⟩ := hok
        have hproc : processed_issues (i :: rest) = [i] := by
          rw [processed_issues_cons, if_pos ⟨hfile, hds⟩]
        constructor
        · intro h1 h2
          rw [← hd, if_neg (fun hor => hor.elim h1 h2)]
        · intro hd0
          rw [hproc]
          have hd2 : d = i.affected_package.getD "" := by rw [← hd, if_pos hd0]
          cases hap : i.affected_package with
          | str s =>
            by_cases hs : s = ""
            · have hpkf : ¬ pkg_nonempty i = true := by simp [pkg_nonempty, hap, hs]
              refine ⟨?_, ?_⟩
              · intro i0 hfind
                rw [List.find?_cons_of_neg _ hpkf] at hfind
                simp [List.find?] at hfind
              · intro _
                left
                rw [hd2, hap, hs]
                rfl
            · have hpkt : pkg_nonempty i = true := by simp [pkg_nonempty, hap, hs]
              refine ⟨?_, ?_⟩
              · intro i0 hfind
                rw [List.find?_cons_of_pos _ hpkt] at hfind
                have hi0 : i = i0 := by injection hfind
                subst hi0
                rw [hd2, hap]
                rfl
              · intro hfind
                rw [List.find?_cons_of_pos _ hpkt] at hfind
                cases hfind
          | absent =>
            have hpkf : ¬ pkg_nonempty i = true := by simp [pkg_nonempty, hap]
            refine ⟨?_, ?_⟩
            · intro i0 hfind
              rw [List.find?_cons_of_neg _ hpkf] at hfind
              simp [List.find?] at hfind
            · intro _
              left
              rw [hd2, hap]
              rfl
          | null =>
            have hpkf : ¬ pkg_nonempty i = true := by simp [pkg_nonempty, hap]
            refine ⟨?_, ?_⟩
            · intro i0 hfind
              rw [List.find?_cons_of_neg _ hpkf] at hfind
              simp [List.find?] at hfind
            · intro _
              right
              rw [hd2, hap]
              rfl
      · rw [if_neg hds] at hok
        have hproc : processed_issues (i :: rest) = i :: processed_issues rest := by
          rw [processed_issues_cons, if_neg (fun hand => hds hand.2)]
        cases hpk : i.affected_package.getOrNone with
        | none =>
          rw [hpk] at hok
          simp at hok
        | some pkg =>
          rw [hpk] at hok
          have hap : i.affected_package = .str pkg := by
            cases h2 : i.affected_package with
            | absent => rw [h2] at hpk; simp [PyField.getOrNone] at hpk
            | null => rw [h2] at hpk; simp [PyField.getOrNone] at hpk
            | str s =>
              rw [h2] at hpk
              have hsp : s = pkg := by
                have : some s = some pkg := hpk
                injection this
              rw [← hsp]
          have hok3 : (if py_in pkg fl then
                render_issues pu sb rest
                  (if d0 = some "" ∨ d0 = none then i.affected_package.getD "" else d0)
                  fl fc
              else
                render_issues pu sb rest
                  (if d0 = some "" ∨ d0 = none then i.affected_package.getD "" else d0)
                  (fl ++ "Package: `" ++ pkg ++ "`<br>") fc) = .ok (d, fl2, fc2) := hok
          have hok2 : ∃ flx, render_issues pu sb rest
              (if d0 = some "" ∨ d0 = none then i.affected_package.getD "" else d0)
              flx fc = .ok (d, fl2, fc2) := by
            by_cases hin : py_in pkg fl
            · rw [if_pos hin] at hok3
              exact ⟨fl, hok3⟩
            · rw [if_neg hin] at hok3
              exact ⟨_, hok3⟩
          obtain ⟨flx, hok2⟩ := hok2
          constructor
          · intro h1 h2
            rw [if_neg (fun hor => hor.elim h1 h2)] at hok2
            exact (ih _ _ _ _ _ _ hok2).1 h1 h2
          · intro hd0
            rw [if_pos hd0, hap] at hok2
            rw [hproc]
            by_cases hs : pkg = ""
            · subst hs
              have hpkf : ¬ pkg_nonempty i = true := by simp [pkg_nonempty, hap]
              refine ⟨?_, ?_⟩
              · intro i0 hfind
                rw [List.find?_cons_of_neg _ hpkf] at hfind
                exact ((ih _ _ _ _ _ _ hok2).2 (Or.inl rfl)).1 i0 hfind
              · intro hfind
                rw [List.find?_cons_of_neg _ hpkf] at hfind
                exact ((ih _ _ _ _ _ _ hok2).2 (Or.inl rfl)).2 hfind
            · have hpkt : pkg_nonempty i = true := by simp [pkg_nonempty, hap, hs]
              have hne : ¬ ((PyField.str pkg).getD "" : Option String) = some "" := by
                simp only [PyField.getD, Option.some.injEq]
                exact hs
              have hnn : ¬ ((PyField.str pkg).getD "" : Option String) = none := by
                simp [PyField.getD]
              have hD := (ih _ _ _ _ _ _ hok2).1 hne hnn
              refine ⟨?_, ?_⟩
              · intro i0 hfind
                rw [List.find?_cons_of_pos _ hpkt] at hfind
                have hi0 : i = i0 := by injection hfind
                subst hi0
                rw [hD, hap]
                rfl
              · intro hfind
                rw [List.find?_cons_of_pos _ hpkt] at hfind
                cases hfind
    · rw [if_neg hfile] at hok
      have hproc : processed_issues (i :: rest) = i :: processed_issues rest := by
        rw [processed_issues_cons, if_neg (fun hand => hfile hand.1)]
      constructor
      · intro h1 h2
        rw [if_neg (fun hor => hor.elim h1 h2)] at hok
        exact (ih _ _ _ _ _ _ hok).1 h1 h2
      · intro hd0
        rw [if_pos hd0] at hok
        rw [hproc]
        cases hap : i.affected_package with
        | absent =>
          rw [hap] at hok
          have hpkf : ¬ pkg_nonempty i = true := by simp [pkg_nonempty, hap]
          refine ⟨?_, ?_⟩
          · intro i0 hfind
            rw [List.find?_cons_of_neg _ hpkf] at hfind
            exact ((ih _ _ _ _ _ _ hok).2 (Or.inl rfl)).1 i0 hfind
          · intro hfind
            rw [List.find?_cons_of_neg _ hpkf] at hfind
            exact ((ih _ _ _ _ _ _ hok).2 (Or.inl rfl)).2 hfind
        | null =>
          rw [hap] at hok
          have hpkf : ¬ pkg_nonempty i = true := by simp [pkg_nonempty, hap]
          refine ⟨?_, ?_⟩
          · intro i0 hfind
            rw [List.find?_cons_of_neg _ hpkf] at hfind
            exact ((ih _ _ _ _ _ _ hok).2 (Or.inr rfl)).1 i0 hfind
          · intro hfind
            rw [List.find?_cons_of_neg _ hpkf] at hfind
            exact ((ih _ _ _ _ _ _ hok).2 (Or.inr rfl)).2 hfind
        | str s =>
          rw [hap] at hok
          by_cases hs : s = ""
          · subst hs
            have hpkf : ¬ pkg_nonempty i = true := by simp [pkg_nonempty, hap]
            refine ⟨?_, ?_⟩
            · intro i0 hfind
              rw [List.find?_cons_of_neg _ hpkf] at hfind
              exact ((ih _ _ _ _ _ _ hok).2 (Or.inl rfl)).1 i0 hfind
            · intro hfind
              rw [List.find?_cons_of_neg _ hpkf] at hfind
              exact ((ih _ _ _ _ _ _ hok).2 (Or.inl rfl)).2 hfind
          · have hpkt : pkg_nonempty i = true := by simp [pkg_nonempty, hap, hs]
            have hne : ¬ ((PyField.str s).getD "" : Option String) = some "" := by
              simp only [PyField.getD, Option.some.injEq]
              exact hs
            have hnn : ¬ ((PyField.str s).getD "" : Option String) = none := by
              simp [PyField.getD]
            have hD := (ih _ _ _ _ _ _ hok).1 hne hnn
            refine ⟨?_, ?_⟩
            · intro i0 hfind
              rw [List.find?_cons_of_pos _ hpkt] at hfind
              have hi0 : i = i0 := by injection hfind
              subst hi0
              rw [hD, hap]
              rfl
            · intro hfind
              rw [List.find?_cons_of_pos _ hpkt] at hfind
              cases hfind

/-- The two issues of the C7 counterexample: the first has an empty-string
`affected_package`, the second a non-empty one. -/
def fallback_issue_a : Issue :=
  { affected_file := some "fa.py", attack_surface := "", affected_package := .str "" }

/-- Second issue of the C7 counterexample. -/
def fallback_issue_b : Issue :=
  { affected_file := some "fb.py", attack_surface := "", affected_package := .str "pkgB" }

/-- The C7 counterexample group: description present but empty. -/
def fallback_group : IssueGroup :=
  { type := "", description := some "", severity := some "high",
    issue_list := [fallback_issue_a, fallback_issue_b] }

/-- Witness for C7's amended theorem: with an empty description and a first
issue whose `affected_package` is `""`, the loop returns normally and the
final description is the second issue's package — the first consulted
issue with a non-empty `affected_package`. -/
theorem render_issues_description_fallback_w :
    render_issues "PU" "BR" [fallback_issue_a, fallback_issue_b] (some "") "" 0 =
      .ok (some "pkgB", "[fa.py](PU/-/blob/BR/fa.py)[fb.py](PU/-/blob/BR/fb.py)", 2) ∧
    (some "pkgB" : Option String) = fallback_issue_b.affected_package.getOrNone := by
  constructor
  · rfl
  · exact ((render_issues_description_fallback "PU" "BR" [fallback_issue_a, fallback_issue_b]
      (some "") "" 0 (some "pkgB")
      "[fa.py](PU/-/blob/BR/fa.py)[fb.py](PU/-/blob/BR/fb.py)" 2 rfl).2
      (Or.inl rfl)).1 fallback_issue_b (by decide)

set_option maxRecDepth 4096 in
/-- C7 counterexample: the claim says the description column falls back to
the FIRST issue's `affected_package` (here the empty string), but the code
renders the second issue's `"pkgB"`. -/
theorem description_fallback_not_first_issue_cex :
    fallback_group.description = some "" ∧
    fallback_issue_a.affected_package = PyField.str "" ∧
    generate_table "PU" "BR" [("g7", fallback_group)] "r7" =
      Except.ok ("\n# SAST scan results\n1 issues found in codebase❗\n<details><summary>SAST scan results</summary>\n\n|Issue description|File location or affected package|Severity|Link|\n|---|---|---|---|\n|pkgB|[fa.py](PU/-/blob/BR/fa.py)[fb.py](PU/-/blob/BR/fb.py)</details>|$`\textcolor\x7borange\x7d\x7b\text\x7bhigh\x7d\x7d`$|https://app.aikido.dev/repositories/r7?sidebarIssue=g7|\n\n</details>") ∧
    py_in "|pkgB|" "|pkgB|[fa.py](PU/-/blob/BR/fa.py)" = true := by
  refine ⟨rfl, rfl, rfl, by decide⟩

/-! ### Top-level error handling (C2) -/

/-- C2 (amended): an exception anywhere in the fetch-merge-filter chain is
caught inside `get_high_and_critical_issues`, which exits the process with
code 1 — `main`'s `except Exception` never sees the resulting `SystemExit`
and no comment is posted; only an exception raised by `generate_table`
itself reaches `main`'s handler and is downgraded to the placeholder, with
the comment still posted. -/
theorem main_result_error_handling :
    ∀ (env : AikidoEnv) (repo_name : String) (fuel : Nat)
      (pu sb pid purl sha : String),
      (∀ e, build_issue_data env repo_name fuel = .error e →
        main_result env repo_name fuel pu sb pid purl sha = .exited 1) ∧
      (∀ issues repo_id t, build_issue_data env repo_name fuel = .ok (issues, repo_id) →
        generate_table pu sb issues repo_id = .ok t →
        main_result env repo_name fuel pu sb pid purl sha =
          .posted (base_message pid purl sha ++ "\n\n" ++ t)) ∧
      (∀ issues repo_id e, build_issue_data env repo_name fuel = .ok (issues, repo_id) →
        generate_table pu sb issues repo_id = .error e →
        main_result env repo_name fuel pu sb pid purl sha =
          .posted (base_message pid purl sha ++ "\n\n" ++ failed_banner)) := by
  intro env repo_name fuel pu sb pid purl sha
  refine ⟨?_, ?_, ?_⟩
  · intro e h
    simp [main_result, generate_issue_table, get_high_and_critical_issues, h]
  · intro issues repo_id t h hg
    simp [main_result, generate_issue_table, get_high_and_critical_issues, h, hg]
  · intro issues repo_id e h hg
    simp [main_result, generate_issue_table, get_high_and_critical_issues, h, hg]

/-- A run whose token exchange is refused with HTTP 401. -/
def env_auth_fail : AikidoEnv :=
  { token_status := 401, token_body := [],
    repo_pages := fun _ => (200, []),
    groups_resp := (200, []),
    details_resp := fun _ => (200, []) }

/-- Witness for C2's amended theorem at the concrete 401 run. -/
theorem main_result_error_handling_w :
    main_result env_auth_fail "repo" 3 "PU" "BR" "PID" "PURL" "SHA" = .exited 1 := by
  exact (main_result_error_handling env_auth_fail "repo" 3 "PU" "BR" "PID" "PURL" "SHA").1
    PyExn.authError rfl

/-- C2 counterexample: when the token exchange fails, the process exits
with code 1; the claim instead predicts that the comment step is reached
with the placeholder body. -/
theorem fetch_failure_exits_not_posted :
    main_result env_auth_fail "repo" 3 "PU" "BR" "PID" "PURL" "SHA" =
      MainOutcome.exited 1 ∧
    ¬ main_result env_auth_fail "repo" 3 "PU" "BR" "PID" "PURL" "SHA" =
      MainOutcome.posted (base_message "PID" "PURL" "SHA" ++ "\n\n" ++ failed_banner) := by
  constructor
  · rfl
  · intro h
    rw [show main_result env_auth_fail "repo" 3 "PU" "BR" "PID" "PURL" "SHA" =
      MainOutcome.exited 1 from rfl] at h
    cases h

/-! ### The dead `leaked_secret` skip (C1) -/

/-- `Char.ofNat` round-trips through `toNat` below the surrogate range. -/
theorem char_toNat_ofNat (m : Nat) (h : m < 55296) : (Char.ofNat m).toNat = m := by
  unfold Char.ofNat
  rw [dif_pos (Or.inl h)]
  rfl

/-- Lowercasing cannot produce an underscore. -/
theorem toLower_ne_underscore (c : Char) (hc : ¬ c = '_') : ¬ c.toLower = '_' := by
  unfold Char.toLower
  by_cases h : c.toNat ≥ 65 ∧ c.toNat ≤ 90
  · rw [if_pos h]
    intro heq
    have h2 : (Char.ofNat (c.toNat + 32)).toNat = Char.toNat '_' := congrArg Char.toNat heq
    rw [char_toNat_ofNat _ (by omega)] at h2
    have h3 : Char.toNat '_' = 95 := by decide
    omega
  · rw [if_neg h]
    exact hc

/-- Uppercasing cannot produce an underscore. -/
theorem toUpper_ne_underscore (c : Char) (hc : ¬ c = '_') : ¬ c.toUpper = '_' := by
  unfold Char.toUpper
  by_cases h : c.toNat ≥ 97 ∧ c.toNat ≤ 122
  · rw [if_pos h]
    intro heq
    have h2 : (Char.ofNat (c.toNat - 32)).toNat = Char.toNat '_' := congrArg Char.toNat heq
    rw [char_toNat_ofNat _ (by omega)] at h2
    have h3 : Char.toNat '_' = 95 := by decide
    omega
  · rw [if_neg h]
    exact hc

/-- Title-casing introduces no underscore. -/
theorem py_title_chars_no_underscore :
    ∀ (l : List Char) (b : Bool), ¬ '_' ∈ l → ¬ '_' ∈ py_title_chars l b := by
  intro l
  induction l with
  | nil => intro b h hmem; simp [py_title_chars] at hmem
  | cons c cs ih =>
    intro b h hmem
    have hc : ¬ c = '_' := fun hcc => h (by rw [hcc]; exact List.mem_cons_self _ _)
    have hcs : ¬ '_' ∈ cs := fun hm => h (List.mem_cons_of_mem _ hm)
    rw [py_title_chars, List.mem_cons] at hmem
    rcases hmem with heq | hmem2
    · by_cases ha : c.isAlpha
      · rw [if_pos ha] at heq
        by_cases hb : b
        · rw [if_pos hb] at heq
          exact toLower_ne_underscore c hc heq.symm
        · rw [if_neg hb] at heq
          exact toUpper_ne_underscore c hc heq.symm
      · rw [if_neg ha] at heq
        exact hc heq.symm
    · exact ih c.isAlpha hcs hmem2

/-- Replacing underscores by spaces leaves no underscore behind. -/
theorem no_underscore_replace (l : List Char) :
    ¬ '_' ∈ l.map (fun c => if c == '_' then ' ' else c) := by
  intro hmem
  rw [List.mem_map] at hmem
  obtain ⟨c, _, hc⟩ := hmem
  by_cases h : c = '_'
  · rw [if_pos (by simpa using h)] at hc; cases hc
  · rw [if_neg (by simpa using h)] at hc; exact h hc

/-- A high-severity `leaked_secret` issue group. -/
def leaked_secret_group : IssueGroup :=
  { type := "leaked_secret", description := some "LeakedDesc", severity := some "high",
    issue_list := [] }

set_option maxRecDepth 4096 in
/-- C1: contrary to the claim, a `leaked_secret` group IS rendered: the
code title-cases the type (`"leaked_secret"` becomes `"Leaked Secret"`)
before comparing it against the snake_case literal `"leaked_secret"`, so
the skip branch never fires and the group contributes a table row (its
description appears between pipes in the output). -/
theorem leaked_secret_groups_are_rendered :
    (∀ s : String, ¬ py_title (py_replace_underscore s) = "leaked_secret") ∧
    py_title (py_replace_underscore leaked_secret_group.type) = "Leaked Secret" ∧
    generate_table "PU" "BR" [("g1", leaked_secret_group)] "r1" =
      Except.ok ("\n# SAST scan results\n1 issues found in codebase❗\n<details><summary>SAST scan results</summary>\n\n|Issue description|File location or affected package|Severity|Link|\n|---|---|---|---|\n|LeakedDesc||$`\textcolor\x7borange\x7d\x7b\text\x7bhigh\x7d\x7d`$|https://app.aikido.dev/repositories/r1?sidebarIssue=g1|\n\n</details>") ∧
    py_in "|LeakedDesc|" "|LeakedDesc||" = true := by
  refine ⟨?_, by decide, rfl, by decide⟩
  intro s h
  have h2 : py_title_chars (s.toList.map (fun c => if c == '_' then ' ' else c)) false =
      "leaked_secret".toList := congrArg String.toList h
  have h3 : '_' ∈ "leaked_secret".toList := by decide
  rw [← h2] at h3
  exact py_title_chars_no_underscore _ false (no_underscore_replace s.toList) h3

end Aikido
